import Mathlib

/-!
Verification development for the gmaps-coords coordinate-resolution tool
(src/src/lib.rs).  The Rust code is shallowly embedded:

* The regular expression `LATLNGPAT = (-?\d+(?:\.\d+)?),(-?\d+(?:\.\d+)?)`,
  always used as `anchor ++ LATLNGPAT` with anchor `"q="` or `"@"`, is
  modelled by a dedicated matcher over `List Char` with the regex crate's
  leftmost-match semantics (for this pattern greedy matching never needs
  backtracking, so maximal-munch scanning is exact).
* `f64` parsing of the captured groups is modelled exactly over `ℚ`
  (captures always have shape `-?\d+(\.\d+)?`, which denotes an exact
  decimal rational); none of the properties below depend on rounding.
* The WebDriver client (fantoccini) is modelled as an oracle `Session`
  giving the outcome of `goto` and of each successive `current_url` call,
  and browser interactions are recorded in an explicit `Event` trace.
* The record-reconciliation loops `run_geojson` / `run_csv` are recursive
  functions threading an abstract resolver-state `σ` (the shared browser
  session) and recording the URLs sent to the resolver.
-/

/-- JSON values, as used for GeoJSON feature properties
(`serde_json::Value`).  Objects are association lists. -/
inductive Json where
  | null : Json
  | bool : Bool → Json
  | num : ℚ → Json
  | str : String → Json
  | arr : List Json → Json
  | obj : List (String × Json) → Json

/-- Drop the anchor literal from the head of the text
(`None` when the text does not start with the anchor). -/
def stripAnchor : List Char → List Char → Option (List Char)
  | [], cs => some cs
  | _ :: _, [] => none
  | a :: as, c :: cs => if a = c then stripAnchor as cs else none

/-- Maximal run of ASCII digits at the head of the text, and the rest. -/
def takeDigits (cs : List Char) : List Char × List Char :=
  (cs.takeWhile Char.isDigit, cs.dropWhile Char.isDigit)

/-- Match one capture group `-?\d+(?:\.\d+)?` of LATLNGPAT at the head of
the text: returns the captured characters and the remaining text.  The
optional fractional part is taken greedily, exactly as the regex crate
does (no backtracking can ever be needed: a digit is neither `.` nor `,`). -/
def matchNumber (cs : List Char) : Option (List Char × List Char) :=
  let (sgn, cs1) : List Char × List Char :=
    match cs with
    | '-' :: t => (['-'], t)
    | _ => ([], cs)
  let (ds, rest) := takeDigits cs1
  if ds.isEmpty then none
  else
    match rest with
    | '.' :: t =>
      let (fds, rest2) := takeDigits t
      if fds.isEmpty then some (sgn ++ ds, rest)
      else some (sgn ++ ds ++ '.' :: fds, rest2)
    | _ => some (sgn ++ ds, rest)

/-- Try to match `anchor ++ LATLNGPAT` at the very start of the text,
returning the two captured groups (latitude text, longitude text). -/
def tryMatchAt (anchor cs : List Char) : Option (List Char × List Char) :=
  match stripAnchor anchor cs with
  | none => none
  | some r0 =>
    match matchNumber r0 with
    | none => none
    | some (la, r1) =>
      match r1 with
      | ',' :: r2 =>
        match matchNumber r2 with
        | none => none
        | some (ln, _) => some (la, ln)
      | _ => none

/-- Leftmost match of `anchor ++ LATLNGPAT` in the text: the two captured
groups of the first match (`Regex::captures_iter(..).next()`). -/
def findLatLng (anchor : List Char) : List Char → Option (List Char × List Char)
  | [] => none
  | c :: rest =>
    match tryMatchAt anchor (c :: rest) with
    | some r => some r
    | none => findLatLng anchor rest

/-- Numeric value of a digit string. -/
def digitsVal (cs : List Char) : ℕ :=
  cs.foldl (fun n c => 10 * n + (c.toNat - 48)) 0

/-- Model of Rust `str::parse::<f64>()` on the shapes LATLNGPAT captures
(`-?\d+(\.\d+)?`), computed exactly in `ℚ`: the string
`[-]d₁…dₘ.f₁…fₖ` denotes `± (d·10^k + f) / 10^k` where `d`, `f` are the
values of the digit blocks. -/
def parseDecimal (cs : List Char) : Option ℚ :=
  let (neg, cs1) : Bool × List Char :=
    match cs with
    | '-' :: t => (true, t)
    | _ => (false, cs)
  let (ds, rest) := takeDigits cs1
  if ds.isEmpty then none
  else
    match rest with
    | [] => some (mkRat (if neg then -(digitsVal ds : ℤ) else (digitsVal ds : ℤ)) 1)
    | '.' :: fs =>
      let (fds, rest2) := takeDigits fs
      if fds.isEmpty ∨ ¬ rest2.isEmpty then none
      else
        let n : ℕ := digitsVal ds * 10 ^ fds.length + digitsVal fds
        some (mkRat (if neg then -(n : ℤ) else (n : ℤ)) (10 ^ fds.length))
    | _ => none

/-- Failure modes of `coords_from_regex`: the pattern did not match, or a
captured group failed to parse as a float (both are `anyhow` errors in the
source). -/
inductive ExtractErr where
  | notFound : ExtractErr
  | parseErr : ExtractErr
deriving DecidableEq

deriving instance DecidableEq for Except

/-- Parse the two captured groups (latitude text, longitude text) as
floats and emit `vec![lng, lat]`, mirroring the tail of
`coords_from_regex` (`lat.parse()?`, `lng.parse()?`, `Ok(vec![lng, lat])`). -/
def capturesToCoords (la ln : List Char) : Except ExtractErr (List ℚ) :=
  match parseDecimal la, parseDecimal ln with
  | some x, some y => .ok [y, x]
  | _, _ => .error .parseErr

/-- `coords_from_regex(pattern, text)` from src/src/lib.rs, for the
pattern `anchor ++ LATLNGPAT`: first match wins, captures are
(latitude, longitude), the result is `[longitude, latitude]`. -/
def coords_from_regex (anchor text : String) : Except ExtractErr (List ℚ) :=
  match findLatLng anchor.data text.data with
  | none => .error .notFound
  | some (la, ln) => capturesToCoords la ln

example : coords_from_regex "q=" "https://maps.example/?q=-25.0,160.0" =
    .ok [(160 : ℚ), -25] := by decide

example : coords_from_regex "@" "https://g/maps/@-33.8,151.2,15z" =
    .ok [mkRat 1512 10, mkRat (-338) 10] := by decide

example : coords_from_regex "@" "no coordinates here" = .error .notFound := by
  decide

/-- Oracle model of the fantoccini WebDriver client `c`: the outcome of
`c.goto(url)` and the outcome of the `i`-th `c.current_url()` call
(counting the polls of one `get_coords_for_url` invocation).  An `.error`
models a transport-level failure surfaced by `?`. -/
structure Session where
  gotoRes : Except String Unit
  pollRes : ℕ → Except String String

/-- Observable interactions performed by `get_coords_for_url`:
navigation, the fixed-cadence sleep, a read of the current navigation
URL, and an attempted view-center (`@`-pattern) extraction on a
redirected URL. -/
inductive Event where
  | gotoUrl : String → Event
  | sleepMs : ℕ → Event
  | readUrl : Event
  | viewExtract : String → Event
deriving DecidableEq

/-- Failure classification for `get_coords_for_url` (in the source both
are `anyhow` errors: a propagated fantoccini error, or the final
`bail!("Failed to get coordinates before timeout")`). -/
inductive ResolveError where
  | sessionError : ResolveError
  | timeout : ResolveError
deriving DecidableEq

/-- The polling loop `for i in 0..100 { sleep(100ms); current_url()?; … }`
of `get_coords_for_url`, with `i` the index of the next poll and `fuel`
the number of iterations left.  Each iteration sleeps 100 ms, reads the
current URL (propagating transport errors), and only when the reported
URL differs from the original tries the view-center pattern `@`;
exhausting the budget is the timeout bailout. -/
def pollLoop (s : Session) (url : String) : ℕ → ℕ → Except ResolveError (List ℚ) × List Event
  | _, 0 => (.error .timeout, [])
  | i, fuel + 1 =>
    match s.pollRes i with
    | .error _ => (.error .sessionError, [.sleepMs 100, .readUrl])
    | .ok ru =>
      if ru = url then
        let rest := pollLoop s url (i + 1) fuel
        (rest.1, Event.sleepMs 100 :: Event.readUrl :: rest.2)
      else
        match coords_from_regex "@" ru with
        | .ok cs => (.ok cs, [.sleepMs 100, .readUrl, .viewExtract ru])
        | .error _ =>
          let rest := pollLoop s url (i + 1) fuel
          (rest.1, Event.sleepMs 100 :: Event.readUrl :: Event.viewExtract ru :: rest.2)

/-- `get_coords_for_url(c, url)` from src/src/lib.rs: first try the
direct-query pattern `q=` on `url` itself (purely local); only on failure
navigate to `url` and poll the session's current URL up to 100 times at a
100 ms cadence.  The second component is the trace of browser
interactions. -/
def get_coords_for_url (s : Session) (url : String) : Except ResolveError (List ℚ) × List Event :=
  match coords_from_regex "q=" url with
  | .ok coords => (.ok coords, [])
  | .error _ =>
    match s.gotoRes with
    | .error _ => (.error .sessionError, [.gotoUrl url])
    | .ok _ =>
      let rest := pollLoop s url 0 100
      (rest.1, Event.gotoUrl url :: rest.2)

/-- A session that always reports `u` as the current navigation URL and
never fails. -/
def echoSession (u : String) : Session :=
  { gotoRes := .ok (), pollRes := fun _ => .ok u }

example :
    get_coords_for_url (echoSession "https://maps.example/?q=-25.0,160.0")
      "https://maps.example/?q=-25.0,160.0" = (.ok [(160 : ℚ), -25], []) := by
  decide

/-- The geometry value (`geojson::Value`): a `Point` with its coordinate
array, or any of the other geometry kinds, kept opaque. -/
inductive GeoValue where
  | point : List ℚ → GeoValue
  | other : Json → GeoValue

/-- `geojson::Geometry`: a geometry value plus its own optional bbox and
foreign members. -/
structure Geometry where
  bbox : Option (List ℚ)
  value : GeoValue
  foreign_members : Option (List (String × Json))

/-- `geojson::Feature`. -/
structure Feature where
  bbox : Option (List ℚ)
  geometry : Option Geometry
  id : Option Json
  properties : Option (List (String × Json))
  foreign_members : Option (List (String × Json))

/-- Lookup in a JSON object (`JsonObject::get`). -/
def propGet : List (String × Json) → String → Option Json
  | [], _ => none
  | (k, v) :: rest, q => if q = k then some v else propGet rest q

/-- The eligibility test of the `run_geojson` loop body: the feature's
geometry is a `Point`, its first two coordinates exist (`coords.first()`,
`coords.get(1)`) and are both `0.0` (null island, missing data), and the
properties hold a string `google_maps_url`.  Returns the geometry, the
coordinate array and that URL. -/
def featureUrlIfEligible (f : Feature) : Option (Geometry × List ℚ × String) :=
  match f.geometry with
  | none => none
  | some g =>
    match g.value with
    | GeoValue.point coords =>
      match coords[0]?, coords[1]? with
      | some lng, some lat =>
        if lng = 0 ∧ lat = 0 then
          match f.properties with
          | none => none
          | some props =>
            match propGet props "google_maps_url" with
            | some (Json.str url) => some (g, coords, url)
            | _ => none
        else none
      | _, _ => none
    | _ => none

/-- Outcome of one iteration of the `run_geojson` loop for one feature:
either the feature was resolved and its coordinates replaced (the
`continue` path), or execution fell through to the trailing
`if !only_change_places { push }`. -/
inductive StepOut where
  | resolvedF : Feature → StepOut
  | pass : StepOut

/-- One iteration of the `run_geojson` loop.  `resolve` abstracts
`get_coords_for_url` on the shared browser session, whose state `σ` is
threaded through; the third component lists the URLs sent to the
resolver.  On resolver success the coordinate array inside the feature's
geometry is overwritten in place (`*coords = new_coords`); on failure the
error is logged and the unchanged feature falls through. -/
def geoStep {σ : Type} (resolve : σ → String → Except ResolveError (List ℚ) × σ)
    (st : σ) (f : Feature) : StepOut × σ × List String :=
  match featureUrlIfEligible f with
  | none => (.pass, st, [])
  | some (g, _, url) =>
    match resolve st url with
    | (.ok new_coords, st2) =>
      (.resolvedF { f with geometry := some { g with value := GeoValue.point new_coords } },
        st2, [url])
    | (.error _, st2) => (.pass, st2, [url])

/-- The feature loop of `run_geojson(c, input_path, only_change_places)`:
resolved features are pushed with updated coordinates; every other
feature is pushed unchanged unless `only_change_places` is set.  Returns
the output feature list, the final resolver state, and the URLs sent to
the resolver. -/
def run_geojson {σ : Type} (resolve : σ → String → Except ResolveError (List ℚ) × σ)
    (only_change_places : Bool) : σ → List Feature → List Feature × σ × List String
  | st, [] => ([], st, [])
  | st, f :: fs =>
    match geoStep resolve st f with
    | (StepOut.resolvedF f2, st2, calls) =>
      let rest := run_geojson resolve only_change_places st2 fs
      (f2 :: rest.1, rest.2.1, calls ++ rest.2.2)
    | (StepOut.pass, st2, calls) =>
      let rest := run_geojson resolve only_change_places st2 fs
      ((if only_change_places then rest.1 else f :: rest.1), rest.2.1, calls ++ rest.2.2)

/-- The spec's description of the `only_change_places = true` output: of
each input feature, keep exactly the successfully resolved version
(sentinel coordinates and a working URL), and drop everything else. -/
def resolvedOnly {σ : Type} (resolve : σ → String → Except ResolveError (List ℚ) × σ) :
    σ → List Feature → List Feature
  | _, [] => []
  | st, f :: fs =>
    match geoStep resolve st f with
    | (StepOut.resolvedF f2, st2, _) => f2 :: resolvedOnly resolve st2 fs
    | (StepOut.pass, st2, _) => resolvedOnly resolve st2 fs

/-- The expected CSV structure (`struct Record`), with serde renames
`Title`/`Note`/`URL`/`Comment`. -/
structure Record where
  title : String
  note : Option String
  url : String
  comment : Option String

/-- `record_and_coords_to_feature((record, coords))` from
src/src/lib.rs: a `Point` feature at `coords` whose properties hold
`name`, `google_maps_url`, and `note`/`comment` when present; all other
feature fields come from `Feature::default()`. -/
def record_and_coords_to_feature : Record × List ℚ → Feature
  | (record, coords) =>
    let props0 := [("name", Json.str record.title),
      ("google_maps_url", Json.str record.url)]
    let props1 :=
      match record.note with
      | some n => props0 ++ [("note", Json.str n)]
      | none => props0
    let props2 :=
      match record.comment with
      | some c0 => props1 ++ [("comment", Json.str c0)]
      | none => props1
    { bbox := none
      geometry := some { bbox := none, value := GeoValue.point coords, foreign_members := none }
      id := none
      properties := some props2
      foreign_members := none }

/-- The row loop of `run_csv(c, input_path)`.  Each element of the input
list is the result of deserializing one CSV row (`rdr.deserialize`); a
malformed row is logged and skipped, a resolver failure is logged and the
record dropped, and each surviving (record, coords) pair becomes a
feature. -/
def run_csv {σ : Type} (resolve : σ → String → Except ResolveError (List ℚ) × σ) :
    σ → List (Except String Record) → List Feature × σ
  | st, [] => ([], st)
  | st, Except.error _ :: rows => run_csv resolve st rows
  | st, Except.ok record :: rows =>
    match resolve st record.url with
    | (.ok coords, st2) =>
      let rest := run_csv resolve st2 rows
      (record_and_coords_to_feature (record, coords) :: rest.1, rest.2)
    | (.error _, st2) => run_csv resolve st2 rows

/-- The pattern needs at least an anchor match and a digit, so it never
matches the empty text. -/
theorem tryMatchAt_nil (anchor : List Char) : tryMatchAt anchor [] = none := by
  cases anchor with
  | nil => rfl
  | cons a as => rfl

/-- The scanner returns the match at the leftmost matching position:
later matches cannot change the result. -/
theorem findLatLng_first (anchor t : List Char) (i : ℕ) (la ln : List Char)
    (h1 : ∀ j, j < i → tryMatchAt anchor (t.drop j) = none)
    (h2 : tryMatchAt anchor (t.drop i) = some (la, ln)) :
    findLatLng anchor t = some (la, ln) := by
  induction i generalizing t with
  | zero =>
    rw [List.drop_zero] at h2
    cases t with
    | nil => rw [tryMatchAt_nil] at h2; exact Option.noConfusion h2
    | cons c rest => rw [findLatLng, h2]
  | succ i ih =>
    cases t with
    | nil => rw [List.drop_nil, tryMatchAt_nil] at h2; exact Option.noConfusion h2
    | cons c rest =>
      have h0 : tryMatchAt anchor (c :: rest) = none := by
        have := h1 0 (Nat.succ_pos i)
        rwa [List.drop_zero] at this
      rw [findLatLng, h0]
      exact ih rest (fun j hj => by simpa using h1 (j + 1) (Nat.succ_lt_succ hj))
        (by simpa using h2)

/-- If every `current_url` poll reports the original URL, the loop runs
through its whole budget and times out, each iteration being exactly one
100 ms sleep followed by one URL read, with no extraction attempt. -/
theorem pollLoop_stuck (s : Session) (url : String)
    (hpoll : ∀ i, s.pollRes i = .ok url) :
    ∀ fuel i, pollLoop s url i fuel =
      (.error .timeout, (List.replicate fuel [Event.sleepMs 100, Event.readUrl]).flatten) := by
  intro fuel
  induction fuel with
  | zero => intro i; rfl
  | succ fuel ih =>
    intro i
    rw [pollLoop, hpoll i]
    simp [ih (i + 1), List.replicate_succ]

/-- What success of the `run_geojson` eligibility test says about the
feature: point geometry, both leading coordinates present and zero, and a
string `google_maps_url` property. -/
theorem featureUrlIfEligible_spec (f : Feature) (g : Geometry) (cs : List ℚ) (url : String)
    (h : featureUrlIfEligible f = some (g, cs, url)) :
    f.geometry = some g ∧ g.value = GeoValue.point cs ∧
      cs[0]? = some 0 ∧ cs[1]? = some 0 ∧
      ∃ props, f.properties = some props ∧
        propGet props "google_maps_url" = some (Json.str url) := by
  unfold featureUrlIfEligible at h
  cases hg : f.geometry with
  | none => rw [hg] at h; exact Option.noConfusion h
  | some g0 =>
    rw [hg] at h; simp only [] at h
    cases hv : g0.value with
    | other j => rw [hv] at h; exact Option.noConfusion h
    | point coords =>
      rw [hv] at h; simp only [] at h
      cases h0 : coords[0]? with
      | none => rw [h0] at h; simp only [] at h; exact Option.noConfusion h
      | some lng =>
        cases h1 : coords[1]? with
        | none => rw [h0, h1] at h; simp only [] at h; exact Option.noConfusion h
        | some lat =>
          rw [h0, h1] at h; simp only [] at h
          by_cases hz : lng = 0 ∧ lat = 0
          · rw [if_pos hz] at h
            cases hp : f.properties with
            | none => rw [hp] at h; exact Option.noConfusion h
            | some props =>
              rw [hp] at h; simp only [] at h
              cases hu : propGet props "google_maps_url" with
              | none => rw [hu] at h; exact Option.noConfusion h
              | some v =>
                rw [hu] at h
                cases v with
                | str u =>
                  simp only [Option.some.injEq, Prod.mk.injEq] at h
                  obtain ⟨rfl, rfl, rfl⟩ := h
                  exact ⟨rfl, hv, by rw [h0, hz.1], by rw [h1, hz.2],
                    props, rfl, hu⟩
                | null => exact Option.noConfusion h
                | bool b => exact Option.noConfusion h
                | num q => exact Option.noConfusion h
                | arr l => exact Option.noConfusion h
                | obj o => exact Option.noConfusion h
          · rw [if_neg hz] at h; exact Option.noConfusion h

/-- C1: whenever `coords_from_regex` succeeds, its result is exactly the
two-element list whose first entry is the parsed second capture
(longitude) and whose second entry is the parsed first capture
(latitude): the output is axis-swapped relative to the pattern's
(latitude, longitude) capture order. -/
theorem coords_from_regex_swaps_axes (anchor text : String) (cs : List ℚ)
    (h : coords_from_regex anchor text = .ok cs) :
    ∃ la ln x y, findLatLng anchor.data text.data = some (la, ln) ∧
      parseDecimal la = some x ∧ parseDecimal ln = some y ∧ cs = [y, x] := by
  unfold coords_from_regex at h
  cases hf : findLatLng anchor.data text.data with
  | none => rw [hf] at h; exact Except.noConfusion h
  | some p =>
    obtain ⟨la, ln⟩ := p
    rw [hf] at h; simp only [] at h
    unfold capturesToCoords at h
    cases hx : parseDecimal la with
    | none =>
      rw [hx] at h
      cases hy : parseDecimal ln with
      | none => rw [hy] at h; exact Except.noConfusion h
      | some y => rw [hy] at h; exact Except.noConfusion h
    | some x =>
      rw [hx] at h
      cases hy : parseDecimal ln with
      | none => rw [hy] at h; exact Except.noConfusion h
      | some y =>
        rw [hy] at h
        simp only [Except.ok.injEq] at h
        exact ⟨la, ln, x, y, rfl, hx, hy, h.symm⟩

/-- Witness for C1 at the spec's own example URL: the captures are
`-25.0` (latitude) and `160.0` (longitude) and the output is
`[160, -25]`. -/
theorem coords_from_regex_swaps_axes_witness :
    ∃ la ln x y,
      findLatLng "q=".data "https://maps.example/?q=-25.0,160.0".data = some (la, ln) ∧
      parseDecimal la = some x ∧ parseDecimal ln = some y ∧ [(160 : ℚ), -25] = [y, x] :=
  coords_from_regex_swaps_axes "q=" "https://maps.example/?q=-25.0,160.0"
    [(160 : ℚ), -25] (by decide)

/-- C2: when the direct-query (`q=`) extraction succeeds on the URL,
`get_coords_for_url` returns exactly that coordinate with an empty
interaction trace: no navigation and no current-URL read occur, and the
result is what the extractor returns on the URL directly. -/
theorem get_coords_for_url_direct (s : Session) (url : String) (cs : List ℚ)
    (h : coords_from_regex "q=" url = .ok cs) :
    get_coords_for_url s url = (.ok cs, []) := by
  unfold get_coords_for_url
  rw [h]

/-- Witness for C2: a URL with an embedded `q=` coordinate resolves
locally, for any session behaviour. -/
theorem get_coords_for_url_direct_witness :
    get_coords_for_url (echoSession "x") "https://maps.example/?q=-25.0,160.0" =
      (.ok [(160 : ℚ), -25], []) :=
  get_coords_for_url_direct (echoSession "x") "https://maps.example/?q=-25.0,160.0"
    [(160 : ℚ), -25] (by decide)

/-- Counterexample to C3 as stated: for a URL that itself contains a
direct `q=` coordinate, even a session whose reported navigation URL
never differs from the original (and never fails) makes
`get_coords_for_url` return a coordinate with an empty interaction trace
— zero polling attempts and no `Timeout`. -/
theorem get_coords_for_url_timeout_cex :
    (get_coords_for_url (echoSession "https://maps.example/?q=-25.0,160.0")
        "https://maps.example/?q=-25.0,160.0").1 ≠ Except.error ResolveError.timeout ∧
    (get_coords_for_url (echoSession "https://maps.example/?q=-25.0,160.0")
        "https://maps.example/?q=-25.0,160.0").2 = [] := by
  exact ⟨by decide, by decide⟩

/-- C3 (amended): provided that direct `q=` extraction fails on the URL,
if navigation succeeds, no transport error occurs and the session's
reported navigation URL never differs from the original URL, then
`get_coords_for_url` performs exactly 100 polls, each one 100 ms sleep
followed by one current-URL read, never attempts a view-center
extraction, and fails with timeout. -/
theorem get_coords_for_url_timeout (s : Session) (url : String)
    (hq : ∃ e, coords_from_regex "q=" url = .error e)
    (hgoto : s.gotoRes = .ok ())
    (hpoll : ∀ i, s.pollRes i = .ok url) :
    get_coords_for_url s url =
      (.error .timeout,
        Event.gotoUrl url :: (List.replicate 100 [Event.sleepMs 100, Event.readUrl]).flatten) ∧
    ∀ u, Event.viewExtract u ∉ (get_coords_for_url s url).2 := by
  obtain ⟨e, he⟩ := hq
  have h1 : get_coords_for_url s url =
      (.error .timeout,
        Event.gotoUrl url :: (List.replicate 100 [Event.sleepMs 100, Event.readUrl]).flatten) := by
    unfold get_coords_for_url
    rw [he]
    simp only []
    rw [hgoto]
    simp [pollLoop_stuck s url hpoll]
  refine ⟨h1, fun u hu => ?_⟩
  rw [h1] at hu
  simp only [List.mem_cons, List.mem_flatten, List.mem_replicate] at hu
  rcases hu with h2 | ⟨l, ⟨hn, rfl⟩, hmem⟩
  · exact Event.noConfusion h2
  · simp at hmem

/-- Witness for C3 (amended) at a URL with no direct coordinate and a
session that forever reports the original URL. -/
theorem get_coords_for_url_timeout_witness :
    get_coords_for_url (echoSession "https://maps.example/place/xyz")
        "https://maps.example/place/xyz" =
      (.error .timeout,
        Event.gotoUrl "https://maps.example/place/xyz" ::
          (List.replicate 100 [Event.sleepMs 100, Event.readUrl]).flatten) :=
  (get_coords_for_url_timeout (echoSession "https://maps.example/place/xyz")
    "https://maps.example/place/xyz" ⟨.notFound, by decide⟩ rfl (fun _ => rfl)).1

/-- C6: if position `i` is the leftmost position at which the pattern
matches (capturing `la`, `ln`) and some strictly later position also
matches, `coords_from_regex` still returns the coordinate parsed from
the match at `i` — first match wins, later matches are ignored. -/
theorem coords_from_regex_first_match (anchor text : String) (i : ℕ) (la ln : List Char)
    (h1 : ∀ j, j < i → tryMatchAt anchor.data (text.data.drop j) = none)
    (h2 : tryMatchAt anchor.data (text.data.drop i) = some (la, ln))
    (_hmore : ∃ j, i < j ∧ (tryMatchAt anchor.data (text.data.drop j)).isSome) :
    findLatLng anchor.data text.data = some (la, ln) ∧
    coords_from_regex anchor text = capturesToCoords la ln := by
  have hf := findLatLng_first anchor.data text.data i la ln h1 h2
  refine ⟨hf, ?_⟩
  unfold coords_from_regex
  rw [hf]

/-- Witness for C6 on a text with two matches: the first one (at
position 0, capturing `1` and `2`) determines the result. -/
theorem coords_from_regex_first_match_witness :
    findLatLng "@".data "@1,2 and @3,4".data = some (['1'], ['2']) ∧
    coords_from_regex "@" "@1,2 and @3,4" = capturesToCoords ['1'] ['2'] :=
  coords_from_regex_first_match "@" "@1,2 and @3,4" 0 ['1'] ['2']
    (fun j hj => absurd hj (Nat.not_lt_zero j)) (by decide) ⟨9, by decide⟩

/-- C4: a feature's URL is sent to the resolver only when its point
coordinate pair is exactly (0, 0) and its properties hold a string
`google_maps_url`; a feature whose coordinate pair exists but is not
(0, 0) is never resolved and is passed through unchanged — kept exactly
when `only_change_places` is off. -/
theorem run_geojson_sentinel_guard {σ : Type}
    (resolve : σ → String → Except ResolveError (List ℚ) × σ) (st : σ) (f : Feature) :
    (∀ url, url ∈ (geoStep resolve st f).2.2 →
      ∃ g cs, f.geometry = some g ∧ g.value = GeoValue.point cs ∧
        cs[0]? = some 0 ∧ cs[1]? = some 0 ∧
        ∃ props, f.properties = some props ∧
          propGet props "google_maps_url" = some (Json.str url)) ∧
    (∀ g cs a b, f.geometry = some g → g.value = GeoValue.point cs →
      cs[0]? = some a → cs[1]? = some b → ¬(a = 0 ∧ b = 0) →
      geoStep resolve st f = (StepOut.pass, st, []) ∧
      ∀ fs, (run_geojson resolve false st (f :: fs)).1 =
          f :: (run_geojson resolve false st fs).1 ∧
        (run_geojson resolve true st (f :: fs)).1 =
          (run_geojson resolve true st fs).1) := by
  constructor
  · intro url hu
    cases he : featureUrlIfEligible f with
    | none => rw [geoStep, he] at hu; simp at hu
    | some trip =>
      obtain ⟨g, cs, u0⟩ := trip
      rw [geoStep, he] at hu
      simp only [] at hu
      have hurl : url = u0 := by
        cases hr : resolve st u0 with
        | mk res st2 =>
          cases res with
          | ok ncs => rw [hr] at hu; simpa using hu
          | error err => rw [hr] at hu; simpa using hu
      subst hurl
      obtain ⟨hg, hv, h0, h1, props, hp, hpu⟩ := featureUrlIfEligible_spec f g cs url he
      exact ⟨g, cs, hg, hv, h0, h1, props, hp, hpu⟩
  · intro g cs a b hg hv h0 h1 hne
    have hel : featureUrlIfEligible f = none := by
      unfold featureUrlIfEligible
      rw [hg]; simp only []
      rw [hv]; simp only []
      rw [h0, h1]; simp only []
      rw [if_neg hne]
    have hstep : geoStep resolve st f = (StepOut.pass, st, []) := by
      rw [geoStep, hel]
    refine ⟨hstep, fun fs => ⟨?_, ?_⟩⟩
    · rw [run_geojson, hstep]
      simp
    · rw [run_geojson, hstep]
      simp

/-- Resolver oracle used by concrete instances below: state `Unit`,
always succeeding with coordinates `[1, 2]`. -/
def wres : Unit → String → Except ResolveError (List ℚ) × Unit :=
  fun _ _ => (.ok [1, 2], ())

/-- A sentinel feature: point (0, 0) with a `google_maps_url` property. -/
def wf1 : Feature :=
  { bbox := none
    geometry := some { bbox := none, value := GeoValue.point [0, 0], foreign_members := none }
    id := none
    properties := some [("google_maps_url", Json.str "u1")]
    foreign_members := none }

/-- `wf1` after its coordinates are replaced by `[1, 2]`. -/
def wf1r : Feature :=
  { bbox := none
    geometry := some { bbox := none, value := GeoValue.point [1, 2], foreign_members := none }
    id := none
    properties := some [("google_maps_url", Json.str "u1")]
    foreign_members := none }

/-- An already-resolved feature: point (3, 4) with a `google_maps_url`
property. -/
def wf2 : Feature :=
  { bbox := none
    geometry := some { bbox := none, value := GeoValue.point [3, 4], foreign_members := none }
    id := none
    properties := some [("google_maps_url", Json.str "u2")]
    foreign_members := none }

/-- Witness for C4: the sentinel feature `wf1` is sent to the resolver
and satisfies the guard; the non-sentinel feature `wf2` is never
resolved and passes through (dropped under `only_change_places`). -/
theorem run_geojson_sentinel_guard_witness :
    (∃ g cs, wf1.geometry = some g ∧ g.value = GeoValue.point cs ∧
      cs[0]? = some 0 ∧ cs[1]? = some 0 ∧
      ∃ props, wf1.properties = some props ∧
        propGet props "google_maps_url" = some (Json.str "u1")) ∧
    geoStep wres () wf2 = (StepOut.pass, (), []) ∧
    (run_geojson wres false () [wf2]).1 = [wf2] ∧
    (run_geojson wres true () [wf2]).1 = [] := by
  constructor
  · exact (run_geojson_sentinel_guard wres () wf1).1 "u1" (by decide)
  · have h := (run_geojson_sentinel_guard wres () wf2).2
      { bbox := none, value := GeoValue.point [3, 4], foreign_members := none }
      [3, 4] 3 4 rfl rfl rfl rfl (by decide)
    exact ⟨h.1, (h.2 []).1, (h.2 []).2⟩

/-- C5: with `only_change_places = false` the output has exactly as many
features as the input; with `only_change_places = true` the output is, in
input order, exactly the successfully resolved (sentinel-coordinate)
features. -/
theorem run_geojson_output_shape {σ : Type}
    (resolve : σ → String → Except ResolveError (List ℚ) × σ)
    (st : σ) (fs : List Feature) :
    (run_geojson resolve false st fs).1.length = fs.length ∧
    (run_geojson resolve true st fs).1 = resolvedOnly resolve st fs := by
  induction fs generalizing st with
  | nil => exact ⟨rfl, rfl⟩
  | cons f fs ih =>
    cases hstep : geoStep resolve st f with
    | mk o rest =>
      obtain ⟨st2, calls⟩ := rest
      cases o with
      | resolvedF f2 =>
        constructor
        · rw [run_geojson, hstep]
          simpa using (ih st2).1
        · rw [run_geojson, hstep, resolvedOnly, hstep]
          simpa using (ih st2).2
      | pass =>
        constructor
        · rw [run_geojson, hstep]
          simpa using (ih st2).1
        · rw [run_geojson, hstep, resolvedOnly, hstep]
          simpa using (ih st2).2

/-- C9: when an iteration of the `run_geojson` loop resolves a feature,
the output feature is the input feature with only the coordinate array
inside its point geometry replaced by the resolver's result; properties,
feature bbox, id, foreign members, and the geometry's own bbox and
foreign members are unchanged. -/
theorem run_geojson_updates_only_coords {σ : Type}
    (resolve : σ → String → Except ResolveError (List ℚ) × σ)
    (st st2 : σ) (f f2 : Feature) (calls : List String)
    (h : geoStep resolve st f = (StepOut.resolvedF f2, st2, calls)) :
    ∃ g cs url ncs,
      featureUrlIfEligible f = some (g, cs, url) ∧
      f.geometry = some g ∧ g.value = GeoValue.point cs ∧
      resolve st url = (.ok ncs, st2) ∧ calls = [url] ∧
      f2 = { f with geometry := some { g with value := GeoValue.point ncs } } ∧
      f2.properties = f.properties ∧ f2.bbox = f.bbox ∧ f2.id = f.id ∧
      f2.foreign_members = f.foreign_members ∧
      f2.geometry = some ⟨g.bbox, GeoValue.point ncs, g.foreign_members⟩ := by
  rw [geoStep] at h
  cases he : featureUrlIfEligible f with
  | none => rw [he] at h; exact absurd h (by simp)
  | some trip =>
    obtain ⟨g, cs, url⟩ := trip
    rw [he] at h; simp only [] at h
    cases hr : resolve st url with
    | mk res st3 =>
      cases res with
      | error err => rw [hr] at h; simp at h
      | ok ncs =>
        rw [hr] at h
        simp only [Prod.mk.injEq, StepOut.resolvedF.injEq] at h
        obtain ⟨hf2, hst, hcalls⟩ := h
        obtain ⟨hg, hv, _, _, _, _, _⟩ := featureUrlIfEligible_spec f g cs url he
        subst hst
        refine ⟨g, cs, url, ncs, rfl, hg, hv, hr, hcalls.symm, hf2.symm, ?_, ?_, ?_, ?_, ?_⟩
          <;> rw [← hf2]

/-- Witness for C9: resolving the sentinel feature `wf1` with a resolver
returning `[1, 2]` yields `wf1r`, identical except for the coordinates. -/
theorem run_geojson_updates_only_coords_witness :
    ∃ g cs url ncs,
      featureUrlIfEligible wf1 = some (g, cs, url) ∧
      wf1.geometry = some g ∧ g.value = GeoValue.point cs ∧
      wres () url = (.ok ncs, ()) ∧ ["u1"] = [url] ∧
      wf1r = { wf1 with geometry := some { g with value := GeoValue.point ncs } } ∧
      wf1r.properties = wf1.properties ∧ wf1r.bbox = wf1.bbox ∧ wf1r.id = wf1.id ∧
      wf1r.foreign_members = wf1.foreign_members ∧
      wf1r.geometry = some ⟨g.bbox, GeoValue.point ncs, g.foreign_members⟩ :=
  run_geojson_updates_only_coords wres () () wf1 wf1r ["u1"] rfl

/-- C10: a feature with no geometry, a non-point geometry, or a point
whose coordinate array has fewer than two entries never triggers
resolution and causes no failure: with `only_change_places = false` it
appears unchanged in the output, with `only_change_places = true` it is
dropped. -/
theorem run_geojson_ineligible_passthrough {σ : Type}
    (resolve : σ → String → Except ResolveError (List ℚ) × σ)
    (st : σ) (f : Feature)
    (h : f.geometry = none ∨
      (∃ g, f.geometry = some g ∧ ∀ cs, g.value ≠ GeoValue.point cs) ∨
      (∃ g cs, f.geometry = some g ∧ g.value = GeoValue.point cs ∧ cs.length < 2)) :
    geoStep resolve st f = (StepOut.pass, st, []) ∧
    ∀ fs, (run_geojson resolve false st (f :: fs)).1 =
        f :: (run_geojson resolve false st fs).1 ∧
      (run_geojson resolve true st (f :: fs)).1 =
        (run_geojson resolve true st fs).1 := by
  have hel : featureUrlIfEligible f = none := by
    rcases h with hg | ⟨g, hg, hnp⟩ | ⟨g, cs, hg, hv, hlen⟩
    · simp [featureUrlIfEligible, hg]
    · cases hval : g.value with
      | point cs => exact absurd hval (hnp cs)
      | other j => simp [featureUrlIfEligible, hg, hval]
    · have h1 : cs[1]? = none := by
        rw [List.getElem?_eq_none]
        omega
      cases h0 : cs[0]? <;> simp [featureUrlIfEligible, hg, hv, h0, h1]
  have hstep : geoStep resolve st f = (StepOut.pass, st, []) := by
    rw [geoStep, hel]
  refine ⟨hstep, fun fs => ⟨?_, ?_⟩⟩
  · rw [run_geojson, hstep]
    simp
  · rw [run_geojson, hstep]
    simp

/-- A feature with no geometry at all. -/
def wf3 : Feature :=
  { bbox := none, geometry := none, id := none, properties := none,
    foreign_members := none }

/-- Witness for C10 on the geometry-less feature `wf3`. -/
theorem run_geojson_ineligible_passthrough_witness :
    geoStep wres () wf3 = (StepOut.pass, (), []) ∧
    (run_geojson wres false () [wf3]).1 = [wf3] ∧
    (run_geojson wres true () [wf3]).1 = [] :=
  have h := run_geojson_ineligible_passthrough wres () wf3 (Or.inl rfl)
  ⟨h.1, (h.2 []).1, (h.2 []).2⟩

/-- C7: the feature assembler is a total function; the built feature has
a point geometry at exactly the given coordinates, default bbox, id and
foreign members, and properties holding `name` (the record title),
`google_maps_url` (the record URL), and `note` / `comment` exactly when
the record has them. -/
theorem record_and_coords_to_feature_spec (record : Record) (coords : List ℚ) :
    ∃ props,
      record_and_coords_to_feature (record, coords) =
        { bbox := none
          geometry := some ⟨none, GeoValue.point coords, none⟩
          id := none
          properties := some props
          foreign_members := none } ∧
      propGet props "name" = some (Json.str record.title) ∧
      propGet props "google_maps_url" = some (Json.str record.url) ∧
      propGet props "note" = record.note.map Json.str ∧
      propGet props "comment" = record.comment.map Json.str := by
  obtain ⟨title, note, url, comment⟩ := record
  cases note <;> cases comment <;>
    exact ⟨_, rfl, by simp [propGet], by simp [propGet], by simp [propGet],
      by simp [propGet]⟩

/-- C8: a malformed CSV row (a row whose deserialization fails)
contributes no output feature and does not stop processing — the run on
any row list containing it equals the run on the same list with that row
removed. -/
theorem run_csv_skips_malformed {σ : Type}
    (resolve : σ → String → Except ResolveError (List ℚ) × σ) (st : σ)
    (pre post : List (Except String Record)) (e : String) :
    run_csv resolve st (pre ++ Except.error e :: post) =
      run_csv resolve st (pre ++ post) := by
  induction pre generalizing st with
  | nil => rw [List.nil_append, List.nil_append, run_csv]
  | cons row rows ih =>
    cases row with
    | error e2 =>
      rw [List.cons_append, List.cons_append, run_csv, run_csv]
      exact ih st
    | ok record =>
      rw [List.cons_append, List.cons_append, run_csv, run_csv]
      cases hr : resolve st record.url with
      | mk res st2 =>
        cases res with
        | ok coords => simp only [ih st2]
        | error err => simp only [ih st2]
